import Mathlib

/-!
# Verification of the tpower fetch engine (src/gpm, src/prmte)

Shallow embedding of the pure logic of the repository:

* Timestamps: the source works on naive second-precision timestamps,
  serialized as `%Y-%m-%dT%H:%M:%S` strings and parsed with `strptime`.
  We embed a timestamp as the number of seconds since the epoch (`Nat`);
  parsing/formatting is then the identity, and the `strftime` truncation of
  sub-second parts corresponds to flooring to a whole number of seconds.
* Measurement values: Python floats are embedded as `ℚ` (the values are
  only carried around and compared, never rounded by the code under study).
* The HTTP collaborator is an explicit oracle function parameter; a call
  that raises (Python `None` result) is `Option.none` / `ApiResult.failed`.
-/

namespace TPower

/-- A measurement record, the shape returned by `/api/DataList/v2`
(src/gpm/core.py): a JSON object with fields DataSourceId, Date, Value. -/
structure Record where
  dataSourceId : Nat
  date : Nat
  value : ℚ
  deriving DecidableEq, Repr

/-- The deduplication key used by the source: the `(DataSourceId, Date)`
column pair (src/gpm/data.py `duplicate_col`, src/gpm/api.py line 75). -/
def recKey (r : Record) : Nat × Nat := (r.dataSourceId, r.date)

/-- pandas `DataFrame.drop_duplicates` on the subset [DataSourceId, Date] of a
table of records, embedded as a list transformation.  The pandas default is
keep=first: the first row with a given key is kept, all later rows with
that key are dropped, and row order is otherwise preserved.  Used by
`merge_and_pivot` (src/gpm/data.py line 44) and `get_data_for_range`
(src/gpm/api.py line 75). -/
def dropDupAux (seen : List (Nat × Nat)) : List Record → List Record
  | [] => []
  | r :: l =>
    if seen.contains (recKey r) then dropDupAux seen l
    else r :: dropDupAux (recKey r :: seen) l

/-- Entry point of the deduplication: scan from the left with no key seen
yet (pandas keep=first single-pass semantics). -/
def drop_duplicates (l : List Record) : List Record := dropDupAux [] l

/-- src/gpm/dates.py `split_dates_in_half`: parse both endpoints, take
`start + (end - start) / 2` (exact microsecond `timedelta` arithmetic; the
difference is a whole number of seconds, so the midpoint is a whole or a
half second), and re-format with `strftime` at second precision, which
truncates the fractional second.  On second-counts this is exactly
`s + (e - s) / 2` with flooring natural division. -/
def split_dates_in_half (s e : Nat) : Nat := s + (e - s) / 2

/-- src/gpm/dates.py `expected_measurement_count`.  `delta.total_seconds()`
is the exact signed duration; for the day grouping the code instead uses
`delta.days`, the duration floored to whole days (the interval invariant
`start ≤ end` makes Nat subtraction faithful here).  The Python `/` is true
division, embedded exactly in `ℚ`. -/
def expected_measurement_count (s e : Nat) (grouping : String) (granularity : ℚ) : ℚ :=
  if grouping = "minute" then
    (((e : ℚ) - (s : ℚ)) / 60) / granularity
  else if grouping = "hour" then
    (((e : ℚ) - (s : ℚ)) / 3600) / granularity
  else if grouping = "day" then
    (((e - s) / 86400 : Nat) : ℚ) / granularity
  else
    0

/-- Embedding of `pd.date_range` from `a` to `b` at frequency 5MIN, on
second-counts: the timestamps
`a, a + 300, a + 600, ...` up to and including `b`; empty when `a > b`. -/
def expectedRange (a b : Nat) : List Nat :=
  if a ≤ b then (List.range ((b - a) / 300 + 1)).map (fun k => a + 300 * k) else []

/-- Pandas `Timestamp.normalize`: midnight of the day of the timestamp. -/
def normalizeDay (t : Nat) : Nat := t / 86400 * 86400

/-- The missing expected timestamps of `check_complete_index`
(src/gpm/dates.py): the expected index starts five minutes after
`start_date`, is capped at `now - 15min` (the vendor data lag), and the
pandas `Index.difference` keeps, in order, the expected timestamps absent
from the observed index. -/
def missingIndex (observed : List Nat) (start_date end_date now : Nat) : List Nat :=
  (expectedRange (start_date + 300) (min end_date (now - 900))).filter
    (fun t => !(observed.contains t))

/-- src/gpm/dates.py `check_complete_index`: `None, None` when the expected
index is fully covered, otherwise the midnight of the first missing
timestamp and the midnight of the last missing timestamp plus one day.  `now` (the
`datetime.now()` call) is an explicit parameter of the embedding. -/
def check_complete_index (observed : List Nat) (start_date end_date now : Nat) :
    Option (Nat × Nat) :=
  match missingIndex observed start_date end_date now with
  | [] => none
  | t :: rest =>
      some (normalizeDay t, normalizeDay ((t :: rest).getLastD 0) + 86400)

/-- Outcome of one `make_api_call` against /api/DataList/v2 as seen by
`get_data_list` (src/gpm/core.py): a successful JSON record list, the
literal `416` marker for HTTP 416 (range not satisfiable), or `None`
when the request raised (transport failure). -/
inductive ApiResult where
  | ok (records : List Record)
  | rejected
  | failed
  deriving DecidableEq, Repr

/-- The recombination of the two recursive half-interval results in
`get_data_list` (src/gpm/core.py line 274):
`first_half + second_half if first_half and second_half else []`.
Python truthiness: `None` and the empty list are falsy, so the
concatenation is returned only when both halves are non-`None`, non-empty
lists; in every other case the whole call returns `[]`. -/
def combineHalves : Option (List Record) → Option (List Record) → Option (List Record)
  | some (a :: l1), some (b :: l2) => some ((a :: l1) ++ (b :: l2))
  | _, _ => some []

/-- src/gpm/core.py `GPMClient.get_data_list`, with the HTTP collaborator as
an oracle `api : identifier group → start → end → ApiResult`.  The Python
recursion has no structural bound (a 416 on an interval the splitter cannot
shrink recurses forever), so the embedding carries explicit fuel; `fuel = 0`
(`none`) models the non-returning/raising computation. -/
def get_data_list (api : List Nat → Nat → Nat → ApiResult) (datasources : List Nat) :
    Nat → Nat → Nat → Option (List Record)
  | 0, _, _ => none
  | fuel + 1, s, e =>
    match api datasources s e with
    | .ok records => some records
    | .failed => none
    | .rejected =>
        let midpoint := split_dates_in_half s e
        combineHalves (get_data_list api datasources fuel s midpoint)
                      (get_data_list api datasources fuel midpoint e)

/-- Number of records in `data` belonging to DataSourceId `d`: the per-key
count accumulated by the `response_counts` dict of
`get_data_list_in_batches` (src/gpm/core.py lines 329-332). -/
def countId (data : List Record) (d : Nat) : Nat :=
  (data.filter (fun r => r.dataSourceId == d)).length

/-- Key deduplication performed by the Python dict comprehension
building a dict keyed by the datasources: duplicate keys collapse onto their first
occurrence, order of first occurrences preserved. -/
def dedupFirstAux (seen : List Nat) : List Nat → List Nat
  | [] => []
  | a :: l =>
    if seen.contains a then dedupFirstAux seen l
    else a :: dedupFirstAux (a :: seen) l

/-- Entry point: no key seen yet. -/
def dedupFirst (l : List Nat) : List Nat := dedupFirstAux [] l

/-- One evaluation step of the retry loop (src/gpm/core.py lines 329-335):
rebuild `response_counts` over the `data` of the current round only, then keep
the DataSourceIds whose this-round count is strictly below the
`expected_count` threshold. -/
def evalRound (expected : ℚ) (datasources : List Nat) (data : List Record) : List Nat :=
  (dedupFirst datasources).filter (fun d => ((countId data d : ℚ) < expected : Bool))

/-- The `while datasources and retry_count < max_retries` loop of
`get_data_list_in_batches` (src/gpm/core.py lines 324-336), with the inner
`fetch_data` call abstracted as a round-indexed oracle
`fetch : round → pending identifiers → combined records` (each round hits
the network anew, so successive rounds may answer differently).  The fuel
is `max_retries - retry_count`; the result is
`(complete_data, final datasources, final retry_count)`. -/
def batchLoop (fetch : Nat → List Nat → List Record) (expected : ℚ) :
    Nat → List Nat → List Record → Nat → List Record × List Nat × Nat
  | 0, ds, acc, round => (acc, ds, round)
  | fuel + 1, ds, acc, round =>
    if ds = [] then (acc, ds, round)
    else
      let data := fetch round ds
      batchLoop fetch expected fuel (evalRound expected ds data) (acc ++ data) (round + 1)

/-- src/gpm/core.py `GPMClient.get_data_list_in_batches`: run the retry loop
from round 0 with an empty accumulator.  The Python function returns only
`complete_data` (the first component); the embedding also exposes the final
pending set and round counter so the loop invariants can be stated. -/
def get_data_list_in_batches (fetch : Nat → List Nat → List Record) (expected : ℚ)
    (datasources : List Nat) (max_retries : Nat) : List Record × List Nat × Nat :=
  batchLoop fetch expected max_retries datasources [] 0

/-- The per-round pending identifier lists actually dispatched by
`batchLoop`: element `i` is the `datasources` argument of the `fetch_data`
call of round `i`. -/
def batchTrace (fetch : Nat → List Nat → List Record) (expected : ℚ) :
    Nat → List Nat → Nat → List (List Nat)
  | 0, _, _ => []
  | fuel + 1, ds, round =>
    if ds = [] then []
    else ds :: batchTrace fetch expected fuel (evalRound expected ds (fetch round ds)) (round + 1)

/-- The per-round combined responses appended to `complete_data` by
`batchLoop`, in round order. -/
def batchTraceData (fetch : Nat → List Nat → List Record) (expected : ℚ) :
    Nat → List Nat → Nat → List (List Record)
  | 0, _, _ => []
  | fuel + 1, ds, round =>
    if ds = [] then []
    else
      fetch round ds ::
        batchTraceData fetch expected fuel (evalRound expected ds (fetch round ds)) (round + 1)

/-- One element of the per-series `measurement` array in the `measurement`
endpoint response (src/prmte/core.py `get_measurements`): the `dateRange`
timestamp plus the `channel<cid>` value fields actually present in the
JSON object, as an association list from channel id to value. -/
structure Measurement where
  dateRange : Nat
  channelVals : List (Nat × ℚ)
  deriving DecidableEq, Repr

/-- One series of the `measurement` endpoint response: `measurePointId`,
the optional `lastReadingDate`, the `measurement` array and the `channel`
array (each channel contributing its `channelId`). -/
structure Series where
  measurePointId : Nat
  lastReadingDate : Option Nat
  measurement : List Measurement
  channel : List Nat
  deriving DecidableEq, Repr

/-- The Python lookup `measurement.get` of the field channel<cid> with
default 0 (src/prmte/core.py line 154): the channel value when the field
is present, the default `0` otherwise. -/
def chanGet (m : Measurement) (cid : Nat) : ℚ :=
  match m.channelVals.lookup cid with
  | some v => v
  | none => 0

/-- src/prmte/core.py `PRMTEClient.get_measurements`, response-assembly
part (lines 143-157): an empty/absent response yields `([], None)`;
otherwise every (series, measurement, channel) combination contributes the
tuple `(measurePointId, channelId, dateRange, channel value or default 0)`,
and `last_reading` ends up as the `lastReadingDate` of the last series. -/
def get_measurements (res : List Series) : List (Nat × Nat × Nat × ℚ) × Option Nat :=
  match res with
  | [] => ([], none)
  | r :: rest =>
      ((r :: rest).flatMap (fun s =>
          s.measurement.flatMap (fun m =>
            s.channel.map (fun cid => (s.measurePointId, cid, m.dateRange, chanGet m cid)))),
       ((r :: rest).getLastD r).lastReadingDate)

/-! ## Range Splitter (claims C4, C10) -/

/-- C4: for every valid interval (`start ≤ end`), `split_dates_in_half`
returns the temporal midpoint floored to second precision, lying between
the endpoints; the halves `[start, mid]` and `[mid, end]` share exactly
the boundary `mid`, cover the interval, and their open interiors are
disjoint. -/
theorem c4_split_contiguous (s e : Nat) (h : s ≤ e) :
    split_dates_in_half s e = (s + e) / 2 ∧
    s ≤ split_dates_in_half s e ∧
    split_dates_in_half s e ≤ e ∧
    (∀ t, (s ≤ t ∧ t ≤ e) ↔
      ((s ≤ t ∧ t ≤ split_dates_in_half s e) ∨ (split_dates_in_half s e ≤ t ∧ t ≤ e))) ∧
    (∀ t, ¬((s < t ∧ t < split_dates_in_half s e) ∧ (split_dates_in_half s e < t ∧ t < e))) := by
  unfold split_dates_in_half
  refine ⟨by omega, by omega, by omega, fun t => by omega, fun t => by omega⟩

/-- Witness for C4 at the concrete interval `[0, 7]`. -/
theorem c4_witness : (0 : Nat) ≤ 7 ∧ split_dates_in_half 0 7 = (0 + 7) / 2 :=
  ⟨by decide, (c4_split_contiguous 0 7 (by decide)).1⟩

/-- C10: on an interval at most one second long the midpoint equals the
start, so the right recursive call of the range-rejected branch of
`get_data_list` receives the unchanged interval `[s, e]` (and the left one the
empty interval `[s, s]`): splitting makes no progress. -/
theorem c10_short_interval_no_shrink (s e : Nat) (_h : s ≤ e) (h1 : e - s ≤ 1) :
    split_dates_in_half s e = s ∧
    ∀ (api : List Nat → Nat → Nat → ApiResult) (ds : List Nat) (fuel : Nat),
      api ds s e = ApiResult.rejected →
      get_data_list api ds (fuel + 1) s e =
        combineHalves (get_data_list api ds fuel s s) (get_data_list api ds fuel s e) := by
  have hmid : split_dates_in_half s e = s := by unfold split_dates_in_half; omega
  refine ⟨hmid, fun api ds fuel hrej => ?_⟩
  simp only [get_data_list, hrej, hmid]

/-- Witness for C10 at the concrete one-second interval `[0, 1]` with an
always-rejecting collaborator. -/
theorem c10_witness :
    split_dates_in_half 0 1 = 0 ∧
    get_data_list (fun _ _ _ => ApiResult.rejected) [1] 1 0 1 =
      combineHalves (get_data_list (fun _ _ _ => ApiResult.rejected) [1] 0 0 0)
                    (get_data_list (fun _ _ _ => ApiResult.rejected) [1] 0 0 1) := by
  have h := c10_short_interval_no_shrink 0 1 (by decide) (by decide)
  exact ⟨h.1, h.2 (fun _ _ _ => ApiResult.rejected) [1] 0 rfl⟩

/-! ## Expected-Count Estimator (claim C5) -/

/-- C5 counterexample: for the 36-hour interval `[0, 129600]` at grouping
day, granularity 1, the elapsed time expressed in days is `3/2`, but
the code floors to whole days (`timedelta.days`) and returns `1`. -/
theorem c5_counterexample :
    expected_measurement_count 0 129600 "day" 1 = 1 ∧
    ((129600 : ℚ) - (0 : ℚ)) / 86400 / 1 = 3 / 2 ∧
    expected_measurement_count 0 129600 "day" 1 ≠
      ((129600 : ℚ) - (0 : ℚ)) / 86400 / 1 := by
  refine ⟨?_, by norm_num, ?_⟩ <;>
    · simp only [expected_measurement_count, String.reduceEq, reduceIte]
      norm_num

/-- C5 amended: for `start ≤ end` and positive granularity the estimator
returns elapsed time in the unit of the grouping divided by granularity for
`minute` and `hour`, but the elapsed time *floored to whole days* divided
by granularity for `day`; it returns 0 for any unrecognized grouping, is
monotone in the interval length for every grouping, and equals 60 for a
1-hour interval at `(minute, 1)`. -/
theorem c5_expected_count_amended (s e : Nat) (g : ℚ) (_hse : s ≤ e) (hg : 0 < g) :
    expected_measurement_count s e "minute" g = ((e : ℚ) - (s : ℚ)) / 60 / g ∧
    expected_measurement_count s e "hour" g = ((e : ℚ) - (s : ℚ)) / 3600 / g ∧
    expected_measurement_count s e "day" g = (((e - s) / 86400 : Nat) : ℚ) / g ∧
    (∀ grouping : String, grouping ≠ "minute" → grouping ≠ "hour" → grouping ≠ "day" →
      expected_measurement_count s e grouping g = 0) ∧
    (∀ e2 : Nat, e ≤ e2 → ∀ grouping : String,
      expected_measurement_count s e grouping g ≤ expected_measurement_count s e2 grouping g) ∧
    expected_measurement_count 0 3600 "minute" 1 = 60 := by
  refine ⟨by simp [expected_measurement_count, String.reduceEq, reduceIte],
    by simp [expected_measurement_count, String.reduceEq, reduceIte],
    by simp [expected_measurement_count, String.reduceEq, reduceIte], ?_, ?_,
    by simp only [expected_measurement_count, String.reduceEq, reduceIte]; norm_num⟩
  · intro grouping h1 h2 h3
    simp [expected_measurement_count, h1, h2, h3]
  · intro e2 he2 grouping
    have hcast : ((e : ℚ) - (s : ℚ)) ≤ ((e2 : ℚ) - (s : ℚ)) := by
      have he2' : (e : ℚ) ≤ (e2 : ℚ) := by exact_mod_cast he2
      linarith
    by_cases hm : grouping = "minute"
    · subst hm
      simp only [expected_measurement_count, String.reduceEq, reduceIte]
      gcongr
    by_cases hh : grouping = "hour"
    · subst hh
      simp only [expected_measurement_count, String.reduceEq, reduceIte]
      gcongr
    by_cases hd : grouping = "day"
    · subst hd
      simp only [expected_measurement_count, String.reduceEq, reduceIte]
      gcongr
    · simp [expected_measurement_count, hm, hh, hd]

/-- Witness for C5 at `s = 0`, `e = 60`, `g = 1`: the concrete 1-hour
instance of the amended statement. -/
theorem c5_witness :
    (0 : Nat) ≤ 60 ∧ expected_measurement_count 0 3600 "minute" 1 = 60 :=
  ⟨by decide, (c5_expected_count_amended 0 60 1 (by decide) (by norm_num)).2.2.2.2.2⟩

/-! ## Record Normalizer deduplication (claim C3) -/

/-- Scanning with a seen-key set keeps, for every key, exactly the first
record carrying it: filtering the output on a key yields the first match
of the input (or nothing), provided the key was not already seen. -/
theorem dropDupAux_filter (l : List Record) (seen : List (Nat × Nat)) (k : Nat × Nat) :
    (dropDupAux seen l).filter (fun r => recKey r == k) =
      if seen.contains k then [] else (l.find? (fun r => recKey r == k)).toList := by
  induction l generalizing seen with
  | nil => simp [dropDupAux]
  | cons r t ih =>
    simp only [dropDupAux]
    by_cases hseen : seen.contains (recKey r) = true
    · rw [if_pos hseen, ih seen]
      by_cases hk : recKey r = k
      · rw [hk] at hseen
        rw [if_pos hseen, if_pos hseen]
      · have hpr : (recKey r == k) = false := by simp [hk]
        simp [List.find?_cons, hpr]
    · rw [if_neg hseen]
      rw [List.filter_cons]
      by_cases hk : recKey r = k
      · have hpr : (recKey r == k) = true := by simp [hk]
        rw [if_pos hpr, ih (recKey r :: seen)]
        have hcons : ((recKey r :: seen).contains k) = true := by
          simp [List.contains_cons, hk]
        rw [if_pos hcons]
        have hnot : k ∉ seen := by
          rw [← hk]
          simpa using hseen
        simp [hnot, List.find?_cons, hpr]
      · have hpr : (recKey r == k) = false := beq_eq_false_iff_ne.mpr hk
        rw [if_neg (by simp [hpr]), ih (recKey r :: seen)]
        have hcons : ((recKey r :: seen).contains k) = (seen.contains k) := by
          simp [List.contains_cons, Ne.symm hk]
        rw [hcons]
        simp [List.find?_cons, hpr]

/-- C3 counterexample: two records with the same `(DataSourceId, Date)`
key and different values; the deduplication keeps the *first*-seen record
(value 5) and drops the later-seen one (value 7), contradicting the
claimed last-seen policy. -/
theorem c3_counterexample :
    drop_duplicates [⟨1, 100, 5⟩, ⟨1, 100, 7⟩] = [⟨1, 100, 5⟩] ∧
    (Record.mk 1 100 7) ∉ drop_duplicates [⟨1, 100, 5⟩, ⟨1, 100, 7⟩] := by
  decide

/-- C3 amended: on a table containing records with a duplicated
`(identifier, timestamp)` key, the deduplication retains exactly one
record for that key, namely the *first*-seen one: restricting the output
to any key gives precisely the first input record with that key. -/
theorem c3_dedup_keeps_first (l : List Record) (k : Nat × Nat) :
    (drop_duplicates l).filter (fun r => recKey r == k) =
      (l.find? (fun r => recKey r == k)).toList := by
  simpa using dropDupAux_filter l [] k

/-! ## Range-rejected recursion of the single-interval fetch (claim C2) -/

/-- HTTP oracle for the C2 counterexample: rejects the two-day interval
`[0, 172800]` with HTTP 416, answers the left half `[0, 86400]` with one
record and every other interval with an empty record list. -/
def c2api : List Nat → Nat → Nat → ApiResult := fun _ s e =>
  if s = 0 ∧ e = 172800 then ApiResult.rejected
  else if s = 0 ∧ e = 86400 then ApiResult.ok [⟨1, 40000, 5⟩]
  else ApiResult.ok []

/-- C2 counterexample: the left half of the rejected interval yields one
record and the right half yields none; the claim demands the concatenation
`[⟨1, 40000, 5⟩]`, but the truthiness guard of the code
(`if first_half and second_half else []`) discards the non-empty half and
returns the empty list. -/
theorem c2_counterexample :
    get_data_list c2api [1] 1 0 86400 = some [⟨1, 40000, 5⟩] ∧
    get_data_list c2api [1] 1 86400 172800 = some [] ∧
    get_data_list c2api [1] 2 0 172800 = some [] ∧
    (some [] : Option (List Record)) ≠ some [⟨1, 40000, 5⟩] := by
  decide

/-- C2 amended: on a range-rejected interval the fetch splits at the
midpoint and recursively dispatches the *same* identifier group against
each half; it returns the concatenation of the halves only when both
halves produce non-empty record lists, and returns the empty list whenever
either half is empty or failed. -/
theorem c2_split_recursion (api : List Nat → Nat → Nat → ApiResult) (ds : List Nat)
    (fuel s e : Nat) (hrej : api ds s e = ApiResult.rejected) :
    get_data_list api ds (fuel + 1) s e =
      combineHalves (get_data_list api ds fuel s (split_dates_in_half s e))
                    (get_data_list api ds fuel (split_dates_in_half s e) e) ∧
    (∀ (a : Record) (l1 : List Record) (b : Record) (l2 : List Record),
      combineHalves (some (a :: l1)) (some (b :: l2)) = some ((a :: l1) ++ (b :: l2))) ∧
    (∀ o1 o2 : Option (List Record),
      o1 = none ∨ o1 = some [] ∨ o2 = none ∨ o2 = some [] → combineHalves o1 o2 = some []) := by
  refine ⟨by simp only [get_data_list, hrej], fun a l1 b l2 => rfl, ?_⟩
  rintro o1 o2 (rfl | rfl | rfl | rfl)
  · rfl
  · rfl
  · cases o1 with
    | none => rfl
    | some l => cases l <;> rfl
  · cases o1 with
    | none => rfl
    | some l => cases l <;> rfl

/-- Witness for C2 at a concrete rejecting collaborator on `[0, 2]`. -/
theorem c2_witness :
    get_data_list (fun _ _ _ => ApiResult.rejected) [1] 1 0 2 =
      combineHalves
        (get_data_list (fun _ _ _ => ApiResult.rejected) [1] 0 0 (split_dates_in_half 0 2))
        (get_data_list (fun _ _ _ => ApiResult.rejected) [1] 0 (split_dates_in_half 0 2) 2) :=
  (c2_split_recursion (fun _ _ _ => ApiResult.rejected) [1] 0 0 2 rfl).1

/-! ## Sentinel values for absent measurements (claim C9) -/

/-- C9 counterexample: a response whose only measurement object carries a
value for channel 1 but none for channel 3 (`lookup 3 = none`); the
assembled output still contains a tuple for channel 3, with the substituted
default value 0, instead of omitting the pair. -/
theorem c9_counterexample :
    (Measurement.mk 100 [(1, 5)]).channelVals.lookup 3 = none ∧
    get_measurements [⟨7, some 999, [⟨100, [(1, 5)]⟩], [1, 3]⟩] =
      ([(7, 1, 100, (5 : ℚ)), (7, 3, 100, 0)], some 999) := by
  exact ⟨rfl, rfl⟩

/-- C9 amended: whenever a series lists a channel id whose value field is
absent from a measurement object, `get_measurements` emits the tuple for
that (channel, timestamp) pair with the default value 0
(the lookup of channel<cid> with default 0) rather than omitting it. -/
theorem c9_absent_becomes_zero (res : List Series) (s : Series) (m : Measurement) (cid : Nat)
    (hs : s ∈ res) (hm : m ∈ s.measurement) (hc : cid ∈ s.channel)
    (habsent : m.channelVals.lookup cid = none) :
    (s.measurePointId, cid, m.dateRange, (0 : ℚ)) ∈ (get_measurements res).1 := by
  have hval : chanGet m cid = 0 := by simp [chanGet, habsent]
  cases res with
  | nil => cases hs
  | cons r rest =>
    simp only [get_measurements, List.mem_flatMap, List.mem_map]
    exact ⟨s, hs, m, hm, cid, hc, by rw [hval]⟩

/-- Witness for C9 at the concrete single-series response of the
counterexample shape. -/
theorem c9_witness :
    ((7 : Nat), (3 : Nat), (100 : Nat), (0 : ℚ)) ∈
      (get_measurements [⟨7, some 999, [⟨100, [(1, 5)]⟩], [1, 3]⟩]).1 :=
  c9_absent_becomes_zero [⟨7, some 999, [⟨100, [(1, 5)]⟩], [1, 3]⟩]
    ⟨7, some 999, [⟨100, [(1, 5)]⟩], [1, 3]⟩ ⟨100, [(1, 5)]⟩ 3
    (by simp) (by simp) (by simp) rfl

/-! ## Completeness-driven retry loop (claims C1, C7, C8) -/

/-- Builds `n` records for DataSourceId `id` at distinct timestamps. -/
def mkRecs (id n : Nat) : List Record :=
  (List.range n).map (fun k => ⟨id, 300 * (k + 1), 0⟩)

/-- Round-indexed oracle realizing the end-to-end scenario of the spec:
round 1
answers with 11 records for 101 and 6 for 102, round 2 with the remaining
5 records for 102, later rounds with nothing. -/
def scenarioFetch : Nat → List Nat → List Record
  | 0, _ => mkRecs 101 11 ++ mkRecs 102 6
  | 1, _ => mkRecs 102 5
  | _, _ => []

/-- C1 counterexample: in the scenario of the spec (`expected_count = 11`,
round 1: 11 records for 101 and 6 for 102, round 2: 5 more for 102) the
loop does *not* terminate after round 2 with empty Pending: the ledger
counts only the records of the current round, round 2 credits 102 with 5 < 11,
so 102 stays Pending, a third round is dispatched, and the loop ends with
Pending = {102} after 3 rounds (with the 22 records accumulated). -/
theorem c1_counterexample :
    expected_measurement_count 300 3600 "minute" 5 = 11 ∧
    batchTrace scenarioFetch 11 3 [101, 102] 0 = [[101, 102], [102], [102]] ∧
    (get_data_list_in_batches scenarioFetch 11 [101, 102] 3).2.1 = [102] ∧
    (get_data_list_in_batches scenarioFetch 11 [101, 102] 3).2.2 = 3 := by
  refine ⟨?_, by decide, by decide, by decide⟩
  simp only [expected_measurement_count, String.reduceEq, reduceIte]
  norm_num

/-- C1 amended: completeness is judged on the records of each round alone, not
on the accumulation.  In the scenario, round 2 must query only {102}, but
its 5 fresh records stay below the threshold 11, so a third round queries
{102} again; the loop exhausts `max_retries = 3` and returns the 22
accumulated records with 102 still Pending. -/
theorem c1_per_round_counting :
    evalRound 11 [101, 102] (scenarioFetch 0 [101, 102]) = [102] ∧
    countId (scenarioFetch 1 [102]) 102 = 5 ∧
    evalRound 11 [102] (scenarioFetch 1 [102]) = [102] ∧
    (get_data_list_in_batches scenarioFetch 11 [101, 102] 3).1.length = 22 ∧
    (get_data_list_in_batches scenarioFetch 11 [101, 102] 3).2.1 ≠ [] := by
  decide

/-- Every pending identifier produced by one evaluation step was already
pending before it (the `response_counts` dict is keyed by the current
identifiers of the current round only). -/
theorem evalRound_subset (expected : ℚ) (ds : List Nat) (data : List Record) (d : Nat)
    (hd : d ∈ evalRound expected ds data) : d ∈ ds := by
  have hmem : d ∈ dedupFirst ds := List.mem_of_mem_filter hd
  have haux : ∀ (l : List Nat) (seen : List Nat) (a : Nat), a ∈ dedupFirstAux seen l → a ∈ l := by
    intro l
    induction l with
    | nil => intro seen a ha; cases ha
    | cons x t ih =>
      intro seen a ha
      simp only [dedupFirstAux] at ha
      by_cases hx : seen.contains x = true
      · rw [if_pos hx] at ha
        exact List.mem_cons_of_mem x (ih seen a ha)
      · rw [if_neg hx] at ha
        rcases List.mem_cons.mp ha with rfl | ha2
        · exact List.mem_cons_self a t
        · exact List.mem_cons_of_mem x (ih (x :: seen) a ha2)
  exact haux ds [] d hmem

/-- Every identifier queried in any round of the loop already belonged to
the starting pending set of that round. -/
theorem batchTrace_mem_subset (fetch : Nat → List Nat → List Record) (expected : ℚ)
    (fuel : Nat) (ds : List Nat) (round : Nat) (l : List Nat)
    (hl : l ∈ batchTrace fetch expected fuel ds round) (d : Nat) (hd : d ∈ l) : d ∈ ds := by
  induction fuel generalizing ds round l with
  | zero => cases hl
  | succ n ih =>
    simp only [batchTrace] at hl
    by_cases hds : ds = []
    · rw [if_pos hds] at hl; cases hl
    · rw [if_neg hds] at hl
      rcases List.mem_cons.mp hl with rfl | hl2
      · exact hd
      · exact evalRound_subset expected ds (fetch round ds)
          d (ih (evalRound expected ds (fetch round ds)) (round + 1) l hl2 hd)

/-- An index with a member is a valid index: the indexed element is an
element of the list. -/
theorem getD_mem_of_mem (L : List (List Nat)) (j : Nat) (d : Nat)
    (hd : d ∈ L.getD j []) : L.getD j [] ∈ L := by
  rcases Nat.lt_or_ge j L.length with hj | hj
  · rw [List.getD_eq_getElem L [] hj]
    exact L.getElem_mem hj
  · rw [List.getD_eq_default L [] hj] at hd
    cases hd

/-- C7: the pending set queried in a later round is always a subset of the
pending set queried in any earlier round of the same invocation — once an
identifier is dropped from Pending it is never queried again. -/
theorem c7_pending_antitone (fetch : Nat → List Nat → List Record) (expected : ℚ)
    (fuel : Nat) (ds : List Nat) (round : Nat) (i j : Nat) (hij : i ≤ j) (d : Nat)
    (hd : d ∈ (batchTrace fetch expected fuel ds round).getD j []) :
    d ∈ (batchTrace fetch expected fuel ds round).getD i [] := by
  induction fuel generalizing ds round i j with
  | zero =>
    simp only [batchTrace, List.getD] at hd
    simp at hd
  | succ n ih =>
    simp only [batchTrace] at hd ⊢
    by_cases hds : ds = []
    · rw [if_pos hds] at hd
      simp at hd
    · rw [if_neg hds] at hd ⊢
      cases i with
      | zero =>
        simp only [List.getD_cons_zero]
        cases j with
        | zero => simpa using hd
        | succ j2 =>
          rw [List.getD_cons_succ] at hd
          exact batchTrace_mem_subset fetch expected (n + 1) ds round _
            (by
              simp only [batchTrace]
              rw [if_neg hds]
              exact List.mem_cons_of_mem _ (getD_mem_of_mem _ j2 d hd)) d hd
      | succ i2 =>
        cases j with
        | zero => omega
        | succ j2 =>
          rw [List.getD_cons_succ] at hd ⊢
          exact ih _ (round + 1) i2 j2 (Nat.le_of_succ_le_succ hij) hd

/-- Witness for C7 in the concrete scenario: 102 is queried in round 2 and
hence was already queried in round 1. -/
theorem c7_witness :
    (102 : Nat) ∈ (batchTrace scenarioFetch 11 3 [101, 102] 0).getD 0 [] :=
  c7_pending_antitone scenarioFetch 11 3 [101, 102] 0 0 1 (by decide) 102 (by decide)

/-- With an empty pending set the loop exits immediately, whatever fuel
remains. -/
theorem batchLoop_nil (fetch : Nat → List Nat → List Record) (expected : ℚ)
    (fuel : Nat) (acc : List Record) (round : Nat) :
    batchLoop fetch expected fuel [] acc round = (acc, [], round) := by
  cases fuel <;> simp [batchLoop]

/-- Structural bookkeeping of the retry loop: the final round counter never
exceeds the starting counter plus the remaining budget; the loop stops
either with empty Pending or with the budget exhausted; and the returned
data is exactly the accumulator followed by the fetched records of every
round. -/
theorem batchLoop_spec (fetch : Nat → List Nat → List Record) (expected : ℚ)
    (fuel : Nat) (ds : List Nat) (acc : List Record) (round : Nat) :
    (batchLoop fetch expected fuel ds acc round).2.2 ≤ round + fuel ∧
    ((batchLoop fetch expected fuel ds acc round).2.1 = [] ∨
      (batchLoop fetch expected fuel ds acc round).2.2 = round + fuel) ∧
    (batchLoop fetch expected fuel ds acc round).1 =
      acc ++ (batchTraceData fetch expected fuel ds round).flatten := by
  induction fuel generalizing ds acc round with
  | zero => simp [batchLoop, batchTraceData]
  | succ n ih =>
    by_cases hds : ds = []
    · subst hds
      simp [batchLoop, batchTraceData]
    · have hrec := ih (evalRound expected ds (fetch round ds)) (acc ++ fetch round ds) (round + 1)
      simp only [batchLoop, if_neg hds, batchTraceData]
      refine ⟨by omega, ?_, ?_⟩
      · rcases hrec.2.1 with h1 | h2
        · exact Or.inl h1
        · exact Or.inr (by omega)
      · rw [hrec.2.2]
        simp [List.flatten]

/-- C8: the retry loop performs at most `max_retries` rounds; it stops with
either an empty Pending set or an exhausted budget; budget exhaustion is
not an error — the accumulated (possibly partial) records of every round
are returned; and when the very first round already satisfies every
requested identifier, exactly one round is performed. -/
theorem c8_budget (fetch : Nat → List Nat → List Record) (expected : ℚ)
    (ds : List Nat) (m : Nat) :
    (get_data_list_in_batches fetch expected ds m).2.2 ≤ m ∧
    ((get_data_list_in_batches fetch expected ds m).2.1 = [] ∨
      (get_data_list_in_batches fetch expected ds m).2.2 = m) ∧
    (get_data_list_in_batches fetch expected ds m).1 =
      (batchTraceData fetch expected m ds 0).flatten ∧
    (ds ≠ [] → 1 ≤ m →
      (∀ d ∈ dedupFirst ds, expected ≤ (countId (fetch 0 ds) d : ℚ)) →
      get_data_list_in_batches fetch expected ds m = (fetch 0 ds, [], 1)) := by
  have hspec := batchLoop_spec fetch expected m ds [] 0
  refine ⟨by simpa [get_data_list_in_batches] using hspec.1,
    by simpa [get_data_list_in_batches] using hspec.2.1,
    by simpa [get_data_list_in_batches] using hspec.2.2, ?_⟩
  intro hne hm hsat
  cases m with
  | zero => omega
  | succ m2 =>
    have heval : evalRound expected ds (fetch 0 ds) = [] := by
      rw [evalRound, List.filter_eq_nil_iff]
      intro d hd
      have hle := hsat d hd
      simp only [decide_eq_true_eq]
      exact not_lt.mpr hle
    rw [get_data_list_in_batches]
    simp only [batchLoop, if_neg hne, heval]
    rw [batchLoop_nil]
    simp

/-- Witness for C8: a single identifier whose first-round response already
contains the expected 11 records; the loop performs exactly one round. -/
theorem c8_witness :
    get_data_list_in_batches (fun _ _ => mkRecs 101 11) 11 [101] 3 =
      (mkRecs 101 11, [], 1) :=
  (c8_budget (fun _ _ => mkRecs 101 11) 11 [101] 3).2.2.2 (by decide) (by decide) (by decide)

/-! ## Gap Reconciler (claim C6) -/

/-- The expected timestamp index is ascending. -/
theorem expectedRange_pairwise (a b : Nat) : (expectedRange a b).Pairwise (· ≤ ·) := by
  unfold expectedRange
  split
  · refine List.Pairwise.map _ (fun k1 k2 h => ?_) (List.pairwise_lt_range _)
    omega
  · exact List.Pairwise.nil

/-- In an ascending list every member is bounded by the last element. -/
theorem pairwise_le_getLast? (l : List Nat) :
    l.Pairwise (· ≤ ·) → ∀ u ∈ l, ∃ m, l.getLast? = some m ∧ u ≤ m := by
  induction l with
  | nil => intro _ u hu; cases hu
  | cons x t ih =>
    intro hl u hu
    rcases List.pairwise_cons.mp hl with ⟨hx, ht⟩
    cases t with
    | nil =>
      rcases List.mem_singleton.mp hu with rfl
      exact ⟨u, rfl, le_refl u⟩
    | cons y ys =>
      rw [List.getLast?_cons_cons]
      rcases List.mem_cons.mp hu with rfl | hu2
      · rcases ih ht y (List.mem_cons_self y ys) with ⟨m, hm, hym⟩
        exact ⟨m, hm, le_trans (hx y (List.mem_cons_self y ys)) hym⟩
      · exact ih ht u hu2

/-- C6: the gap reconciler returns `none` exactly when the observed
timestamps cover the whole expected index of the requested interval;
otherwise it returns the interval from the day boundary (midnight) of the
first missing timestamp to the day boundary of the last missing timestamp
plus one day, and first/last really bound every missing timestamp. -/
theorem c6_gap_reconciler (observed : List Nat) (s e now : Nat) :
    (check_complete_index observed s e now = none ↔
      ∀ t ∈ expectedRange (s + 300) (min e (now - 900)), t ∈ observed) ∧
    (missingIndex observed s e now ≠ [] →
      check_complete_index observed s e now =
        some (normalizeDay ((missingIndex observed s e now).headD 0),
              normalizeDay ((missingIndex observed s e now).getLastD 0) + 86400)) ∧
    (∀ u ∈ missingIndex observed s e now,
      (missingIndex observed s e now).headD 0 ≤ u ∧
        u ≤ (missingIndex observed s e now).getLastD 0) := by
  have hmiss : missingIndex observed s e now = [] ↔
      ∀ t ∈ expectedRange (s + 300) (min e (now - 900)), t ∈ observed := by
    rw [missingIndex, List.filter_eq_nil_iff]
    constructor
    · intro h t ht
      simpa using h t ht
    · intro h t ht
      simpa using h t ht
  have hsorted : (missingIndex observed s e now).Pairwise (· ≤ ·) :=
    List.Pairwise.filter _ (expectedRange_pairwise _ _)
  have hnone : check_complete_index observed s e now = none ↔
      missingIndex observed s e now = [] := by
    rw [check_complete_index]
    cases h : missingIndex observed s e now with
    | nil => simp
    | cons a rest => simp
  refine ⟨hnone.trans hmiss, ?_, ?_⟩
  · intro hne
    rw [check_complete_index]
    cases h : missingIndex observed s e now with
    | nil => exact absurd h hne
    | cons a rest => rfl
  · intro u hu
    cases h : missingIndex observed s e now with
    | nil => rw [h] at hu; cases hu
    | cons a rest =>
      rw [h] at hu hsorted
      rcases List.pairwise_cons.mp hsorted with ⟨ha, _⟩
      constructor
      · rcases List.mem_cons.mp hu with rfl | hu2
        · exact le_refl u
        · exact ha u hu2
      · rcases pairwise_le_getLast? (a :: rest) hsorted u hu with ⟨m, hm, hum⟩
        rw [List.getLastD_eq_getLast?, hm]
        exact hum

/-- Witness for C6: observed `{300, 600}` against the request `[0, 1200]`
(with `now` far in the future): timestamps 900 and 1200 are missing, so
the reconciler brackets them at whole-day boundaries `[0, 86400)`. -/
theorem c6_witness :
    check_complete_index [300, 600] 0 1200 10000000 =
      some (normalizeDay ((missingIndex [300, 600] 0 1200 10000000).headD 0),
            normalizeDay ((missingIndex [300, 600] 0 1200 10000000).getLastD 0) + 86400) :=
  (c6_gap_reconciler [300, 600] 0 1200 10000000).2.1 (by decide)

end TPower


